import Mathlib

/-!
Verification of the tile pyramid generator (`tiatoolbox/tools/pyramid.py`).

The Python classes `TilePyramidGenerator`, `DeepZoomGenerator` and
`ZoomifyGenerator` are embedded shallowly: the generator state is the record
`TilePyramidGenerator` below (a `variant` field models which subclass is in
use, since the subclasses only override `sub_tile_level_count`, `level_count`,
`tile_path` and defaults), and each method becomes a Lean function over that
record.  NumPy floating point expressions whose values are exact (ceilings of
dyadic rationals, `2 ** k`, exact divisions) are embedded as exact arithmetic
over `ℕ`, `ℤ` and `ℚ`.  Methods that raise `IndexError` / `ValueError` /
`NotImplementedError` return `Option`/`Except`-style values or explicit error
traces.
-/

namespace Pyramid

/-- Fuel-based floor of `log2`: `log2Aux fuel n` unfolds the recursion
`log2 n = log2 (n / 2) + 1` at most `fuel` times.  Structural recursion on the
fuel keeps it kernel-reducible. -/
def log2Aux : ℕ → ℕ → ℕ
  | 0, _ => 0
  | fuel + 1, n => if n ≤ 1 then 0 else log2Aux fuel (n / 2) + 1

/-- `⌊log2 n⌋` for `n ≥ 1` (and `0` for `n = 0`). -/
def log2floor (n : ℕ) : ℕ := log2Aux n n

/-- `⌈log2 n⌉` for `n ≥ 1` (and `0` for `n = 0`): the least `k` with
`n ≤ 2 ^ k`.  Embeds `np.ceil(np.log2(n))` for positive integers `n`. -/
def clog2 (n : ℕ) : ℕ := if n ≤ 1 then 0 else log2floor (n - 1) + 1

/-- Ceiling division of naturals, `⌈a / b⌉`; embeds `np.ceil` applied to an
exact quotient of positive integers. -/
def ceilDiv (a b : ℕ) : ℕ := (a + b - 1) / b

/-- The exact value of `np.ceil(np.log2(w / ts))` as an integer, for
`w, ts ≥ 1`: the least `k : ℤ` with `(w : ℚ) / ts ≤ 2 ^ k`. -/
def log2Ceil (w ts : ℕ) : ℤ :=
  if w ≤ ts then -(log2floor (ts / w) : ℤ) else (clog2 (ceilDiv w ts) : ℤ)

/-- Which Python class the generator record models. -/
inductive PyramidVariant
  | generic
  | deepzoom
  | zoomify
deriving DecidableEq

/-- State of a `TilePyramidGenerator` (and of its two subclasses, selected by
`variant`): the slide dimensions reported by `wsi.info.slide_dimensions`
together with the constructor arguments `tile_size`, `downsample`, `overlap`.
All are set once in `__init__` and never mutated. -/
structure TilePyramidGenerator where
  variant : PyramidVariant
  slide_width : ℕ
  slide_height : ℕ
  tile_size : ℕ
  downsample : ℕ
  overlap : ℕ
deriving DecidableEq

variable (g : TilePyramidGenerator)

/-- `output_tile_size`: `self.tile_size + 2 * self.overlap`. -/
def output_tile_size : ℕ := g.tile_size + 2 * g.overlap

/-- `sub_tile_level_count`: `0` on the base class and on `ZoomifyGenerator`;
`int(np.ceil(np.log2(self.output_tile_size)))` on `DeepZoomGenerator`. -/
def sub_tile_level_count : ℕ :=
  match g.variant with
  | .deepzoom => clog2 (output_tile_size g)
  | _ => 0

/-- The base-class `level_count` property:
`int(np.ceil(np.log2(dims / tile_size)).max() + 1 + self.sub_tile_level_count)`
(the per-axis ceiled log2, maximised over the two axes).  Dynamic dispatch in
Python means `self.sub_tile_level_count` is the subclass value. -/
def super_level_count : ℤ :=
  max (log2Ceil g.slide_width g.tile_size) (log2Ceil g.slide_height g.tile_size)
    + 1 + (sub_tile_level_count g : ℤ)

/-- `level_count`: the base-class value, overridden by `DeepZoomGenerator` to
`super().level_count - 1`. -/
def level_count : ℤ :=
  match g.variant with
  | .deepzoom => super_level_count g - 1
  | _ => super_level_count g

/-- `level_downsample(level)`: `2 ** (self.level_count - level - 1)` (note the
hardcoded base `2`; the stored `downsample` field is never read). -/
def level_downsample (level : ℤ) : ℚ := (2 : ℚ) ^ (level_count g - level - 1)

/-- `level_dimensions(level)`:
`np.ceil(np.divide(baseline_dims, self.level_downsample(level))).astype(int)`.
The downsample is the exact power `2 ^ e` with `e = level_count - level - 1`,
so the ceiling of the division is `ceilDiv dims 2^e` for `e ≥ 0` and the exact
product `dims * 2^(-e)` for `e < 0`. -/
def level_dimensions (level : ℤ) : ℕ × ℕ :=
  if 0 ≤ level_count g - level - 1 then
    (ceilDiv g.slide_width (2 ^ (level_count g - level - 1).toNat),
      ceilDiv g.slide_height (2 ^ (level_count g - level - 1).toNat))
  else
    (g.slide_width * 2 ^ (-(level_count g - level - 1)).toNat,
      g.slide_height * 2 ^ (-(level_count g - level - 1)).toNat)

/-- `tile_grid_size(level)`: raises `IndexError` (here: `none`) for
`level < 0` or `level >= self.level_count`, otherwise
`np.ceil(np.divide(self.level_dimensions(level), self.tile_size))`. -/
def tile_grid_size (level : ℤ) : Option (ℕ × ℕ) :=
  if level < 0 ∨ level_count g ≤ level then none
  else
    some (ceilDiv (level_dimensions g level).1 g.tile_size,
      ceilDiv (level_dimensions g level).2 g.tile_size)

/-- `np.prod(self.tile_grid_size(level))` as used by `__len__` and
`tile_group`; only evaluated at valid levels there, so the `none` branch is
arbitrary. -/
def tile_grid_prod (level : ℤ) : ℕ :=
  match tile_grid_size g level with
  | some (cols, rows) => cols * rows
  | none => 0

/-- `__len__`: `sum(np.prod(self.tile_grid_size(level)) for level in
range(self.level_count))`. -/
def tile_count : ℕ :=
  ((List.range (level_count g).toNat).map fun l : ℕ => tile_grid_prod g (l : ℤ)).sum

/-- `np.round` (half to even) on an exact rational. -/
def roundHalfEven (q : ℚ) : ℤ :=
  if q - ⌊q⌋ < 1 / 2 then ⌊q⌋
  else if 1 / 2 < q - ⌊q⌋ then ⌊q⌋ + 1
  else if Even ⌊q⌋ then ⌊q⌋ else ⌊q⌋ + 1

/-- `get_tile_thumb`: the output dimensions
`np.round(slide_dims / slide_dims.max() * tile_dim).astype(int)` with
`tile_dim = self.tile_size + self.overlap`, to which the whole-slide read is
resized. -/
def get_tile_thumb : ℤ × ℤ :=
  let m := max g.slide_width g.slide_height
  let tile_dim := g.tile_size + g.overlap
  (roundHalfEven ((g.slide_width : ℚ) / m * tile_dim),
    roundHalfEven ((g.slide_height : ℚ) / m * tile_dim))

/-- `baseline_x = (x * self.tile_size * scale) - (self.overlap * scale)` with
`scale = self.level_downsample(level)`. -/
def baseline_x (level x : ℤ) : ℚ :=
  (x : ℚ) * g.tile_size * level_downsample g level
    - (g.overlap : ℚ) * level_downsample g level

/-- `baseline_y = (y * self.tile_size * scale) - (self.overlap * scale)`. -/
def baseline_y (level y : ℤ) : ℚ :=
  (y : ℚ) * g.tile_size * level_downsample g level
    - (g.overlap : ℚ) * level_downsample g level

/-- Outcome of `get_tile`: an `IndexError`, a sub-tile thumbnail (the overview
thumbnail shrunk to fit a `bound × bound` box, no region-reader call), or a
`read_rect` region-reader call at the given baseline coordinate and output
size. -/
inductive TileResult
  | err
  | thumb (bound : ℕ)
  | readRect (coord_x coord_y : ℚ) (size : ℕ)
deriving DecidableEq

/-- `get_tile(level, x, y)`: raises for `level < 0` and for
`level > self.level_count` (note: strict, so `level == level_count` passes);
levels below `sub_tile_level_count` shrink the overview thumbnail to a
`2**level` box; otherwise raises when the slide dimensions are elementwise
strictly smaller than `[baseline_x, baseline_y]`, else calls
`read_rect([baseline_x, baseline_y], size=[output_tile_size]*2, ...)`. -/
def get_tile (level x y : ℤ) : TileResult :=
  if level < 0 then .err
  else if level_count g < level then .err
  else if level < (sub_tile_level_count g : ℤ) then .thumb (2 ^ level.toNat)
  else if (g.slide_width : ℚ) < baseline_x g level x
      ∧ (g.slide_height : ℚ) < baseline_y g level y then .err
  else .readRect (baseline_x g level x) (baseline_y g level y) (output_tile_size g)

/-- `ZoomifyGenerator.tile_group(level, x, y)`: `none` models the
`IndexError`s (invalid level via `tile_grid_size`, or
`any(grid_size <= [x, y])`); otherwise
`(cumsum + np.ravel_multi_index((y, x), grid[::-1])) // 256`, where
`np.ravel_multi_index((y, x), (rows, cols)) = y * cols + x`. -/
def tile_group (level : ℤ) (x y : ℕ) : Option ℕ :=
  match tile_grid_size g level with
  | none => none
  | some (cols, rows) =>
    if cols ≤ x ∨ rows ≤ y then none
    else
      some ((((List.range level.toNat).map fun n : ℕ => tile_grid_prod g (n : ℤ)).sum
        + (y * cols + x)) / 256)

/-- String pieces of the tile paths and of `dump`/`dzi` arguments, named so
that no string literal sits directly after an identifier. -/
def underscoreStr : String := "_"

def jpgExtStr : String := ".jpg"

def dashStr : String := "-"

def tileGroupStr : String := "TileGroup"

def zipStr : String := "zip"

def tarStr : String := "tar"

def deflateStr : String := "deflate"

def gzipStr : String := "gzip"

def bz2Str : String := "bz2"

def lzmaStr : String := "lzma"

def zipCompressionErrMsg : String := "Unsupported compression for zip"

def tarCompressionErrMsg : String := "Unsupported compression for tar"

def noneCompressionErrMsg : String := "Unsupported compression for container None"

def containerErrMsg : String := "Unsupported container"

def mkdirErrMsg : String := "mkdir failed"

def destDirStr : String := "out"

def tilePathErrMsg : String := "tile_path raised"

/-- `tile_path(level, x, y)` as a list of path components:
`NotImplementedError` (`none`) on the base class;
`f"{level}" / f"{x}_{y}.jpg"` for DeepZoom;
`f"TileGroup{g}" / f"{z}-{x}-{y}.jpg"` for Zoomify (where computing the tile
group can itself raise, hence `none`). -/
def tile_path (level : ℤ) (x y : ℕ) : Option (List String) :=
  match g.variant with
  | .generic => none
  | .deepzoom =>
    some [toString level, toString x ++ underscoreStr ++ toString y ++ jpgExtStr]
  | .zoomify =>
    match tile_group g level x y with
    | none => none
    | some grp =>
      some [tileGroupStr ++ toString grp,
        toString level ++ dashStr ++ toString x ++ dashStr ++ toString y ++ jpgExtStr]

/-- `tile_grid_size` at a level drawn from `range(self.level_count)` (always
valid there, so the default is never hit in that use). -/
def gridSizeAt (l : ℕ) : ℕ × ℕ := (tile_grid_size g (l : ℤ)).getD (0, 0)

/-- The `(level, x, y)` addresses produced by `__iter__` and by the `dump`
loop: `for level in range(self.level_count): for x, y in
np.ndindex(self.tile_grid_size(level)): ...`.  `np.ndindex` over the shape
`(cols, rows)` iterates in C order: the first index `x` is the outer, slower
one and the second index `y` varies fastest. -/
def iterAddresses : List (ℕ × ℕ × ℕ) :=
  (List.range (level_count g).toNat).flatMap fun level =>
    (List.range (gridSizeAt g level).1).flatMap fun x =>
      (List.range (gridSizeAt g level).2).map fun y => (level, x, y)

/-- Modelled from the spec: the enumeration order stated in the specification,
which asks for row-major order within a level with `y` as the outer index and
`x` as the faster-varying inner index. -/
def claimedIterAddresses : List (ℕ × ℕ × ℕ) :=
  (List.range (level_count g).toNat).flatMap fun level =>
    (List.range (gridSizeAt g level).2).flatMap fun y =>
      (List.range (gridSizeAt g level).1).map fun x => (level, x, y)

/-- Strict ordering of tile addresses as the `__iter__` loop visits them:
ascending level, then ascending `x`, then ascending `y`. -/
def addrLt (a b : ℕ × ℕ × ℕ) : Prop :=
  a.1 < b.1 ∨ (a.1 = b.1 ∧ (a.2.1 < b.2.1 ∨ (a.2.1 = b.2.1 ∧ a.2.2 < b.2.2)))

instance (a b : ℕ × ℕ × ℕ) : Decidable (addrLt a b) := by
  rw [addrLt]; infer_instance

/-- A tile address `(level, x, y)` that lies within a valid level's grid. -/
def validAddr (a : ℕ × ℕ × ℕ) : Prop :=
  a.1 < (level_count g).toNat ∧ a.2.1 < (gridSizeAt g a.1).1
    ∧ a.2.2 < (gridSizeAt g a.1).2

/-- A filesystem path, as components relative to the filesystem root. -/
abbrev FsPath := List String

/-- Observable side effects of `dump`, in program order: creating the
destination directory, opening a zip/tar archive (both create the archive
file), rendering a tile (`get_tile`), `full_path.parent.mkdir(parents=True,
exist_ok=True)`, saving a tile file, and writing a tile into the archive. -/
inductive DumpEffect
  | mkdirDest
  | openZip
  | openTar
  | renderTile (level x y : ℕ)
  | mkdirTileParent (p : FsPath)
  | saveTile (p : FsPath)
  | writeArchive (p : FsPath)
deriving DecidableEq

/-- `mkdir(parents=True, exist_ok=True)`: create every missing ancestor of
`p` and `p` itself in the directory set. -/
def addPathPrefixes (fs : List FsPath) (p : FsPath) : List FsPath :=
  p.inits.foldl (fun acc q => if q ∈ acc then acc else acc ++ [q]) fs

/-- The tile loop of `dump`: per address, render the tile (`get_tile`), then
compute `tile_path` (which may raise), then either make the tile's parent
directories and save (directory mode) or add the bytes to the archive.
Returns the effect trace and the final directory set (or the error). -/
def dumpLoop (dest : FsPath) (isDir : Bool) :
    List (ℕ × ℕ × ℕ) → List FsPath → List DumpEffect × Except String (List FsPath)
  | [], fs => ([], .ok fs)
  | (l, x, y) :: rest, fs =>
    match tile_path g (l : ℤ) x y with
    | none => ([DumpEffect.renderTile l x y], .error tilePathErrMsg)
    | some p =>
      if isDir then
        let fs1 := addPathPrefixes fs (dest ++ p).dropLast
        let next := dumpLoop dest isDir rest fs1
        (DumpEffect.renderTile l x y :: DumpEffect.mkdirTileParent (dest ++ p).dropLast
          :: DumpEffect.saveTile (dest ++ p) :: next.1, next.2)
      else
        let next := dumpLoop dest isDir rest fs
        (DumpEffect.renderTile l x y :: DumpEffect.writeArchive p :: next.1, next.2)

/-- `dump(path, container, compression)` over a directory set `fs` (the
destination's ancestors must be tracked there; the root is `[]`).  Mirrors the
source: zip/tar validate the compression against their table before opening
the archive; `container=None` runs `path.mkdir(parents=False)` — which fails
if `path` exists or its parent is missing — *before* rejecting a non-`None`
compression; any other container is rejected up front. -/
def dump (fs : List FsPath) (path : FsPath) (container compression : Option String) :
    List DumpEffect × Except String (List FsPath) :=
  if container = some zipStr then
    if compression = none ∨ compression = some deflateStr ∨ compression = some bz2Str
        ∨ compression = some lzmaStr then
      let next := dumpLoop g path false (iterAddresses g) fs
      (DumpEffect.openZip :: next.1, next.2)
    else ([], .error zipCompressionErrMsg)
  else if container = some tarStr then
    if compression = none ∨ compression = some gzipStr ∨ compression = some bz2Str
        ∨ compression = some lzmaStr then
      let next := dumpLoop g path false (iterAddresses g) fs
      (DumpEffect.openTar :: next.1, next.2)
    else ([], .error tarCompressionErrMsg)
  else if container = none then
    if path ∈ fs ∨ path.dropLast ∉ fs then ([], .error mkdirErrMsg)
    else
      let fs1 := fs ++ [path]
      if compression ≠ none then ([DumpEffect.mkdirDest], .error noneCompressionErrMsg)
      else
        let next := dumpLoop g path true (iterAddresses g) fs1
        (DumpEffect.mkdirDest :: next.1, next.2)
  else ([], .error containerErrMsg)

/-- A tree-structured markup element (the `xml.etree` values built by
`dzi`). -/
inductive XmlElement
  | mk (tag : String) (attrs : List (String × String)) (children : List XmlElement)

/-- Attribute list of an element. -/
def XmlElement.attrs : XmlElement → List (String × String)
  | .mk _ a _ => a

/-- Child list of an element. -/
def XmlElement.children : XmlElement → List XmlElement
  | .mk _ _ c => c

/-- Tag of an element. -/
def XmlElement.tag : XmlElement → String
  | .mk t _ _ => t

/-- A JSON-style value (the nested dict built by `dzi` for
`dzi_format="json"`). -/
inductive JsonValue
  | str (s : String)
  | obj (fields : List (String × JsonValue))

/-- Field lookup in a JSON object (`none` on a string value). -/
def JsonValue.field (k : String) : JsonValue → Option JsonValue
  | .str _ => none
  | .obj fields => (fields.lookup k).map id

def xmlStr : String := "xml"

def jsonStr : String := "json"

def jpgFormatStr : String := "jpg"

def otherFormatStr : String := "yaml"

def imageTag : String := "Image"

def sizeTag : String := "Size"

def xmlnsKey : String := "xmlns"

def xmlnsVal : String := "http://schemas.microsoft.com/deepzoom/2008"

def formatKey : String := "Format"

def overlapKey : String := "Overlap"

def tileSizeKey : String := "TileSize"

def heightKey : String := "Height"

def widthKey : String := "Width"

/-- The `ET.Element` tree built by `dzi` for `dzi_format="xml"`: note that the
`Size` child maps `Height` to `str(width)` and `Width` to `str(height)` —
`width, height = self.wsi.info.slide_dimensions` — exactly as in the source. -/
def dzi_xml (tile_format : String) : XmlElement :=
  .mk imageTag
    [(xmlnsKey, xmlnsVal), (formatKey, tile_format),
      (overlapKey, toString g.overlap), (tileSizeKey, toString (output_tile_size g))]
    [.mk sizeTag
      [(heightKey, toString g.slide_width), (widthKey, toString g.slide_height)] []]

/-- The nested dict built by `dzi` for `dzi_format="json"`; same swapped
`Height`/`Width` population as the markup form. -/
def dzi_json (tile_format : String) : JsonValue :=
  .obj [(imageTag, .obj
    [(xmlnsKey, .str xmlnsVal), (formatKey, .str tile_format),
      (overlapKey, .str (toString g.overlap)),
      (tileSizeKey, .str (toString (output_tile_size g))),
      (sizeTag, .obj [(heightKey, .str (toString g.slide_width)),
        (widthKey, .str (toString g.slide_height))])])]

/-- `DeepZoomGenerator.dzi(dzi_format, tile_format)`: the markup tree for
`"xml"`, the nested dict for `"json"`, and `ValueError` (`none`) for any
other format string. -/
def dzi (dzi_format tile_format : String) : Option (XmlElement ⊕ JsonValue) :=
  if dzi_format = xmlStr then some (.inl (dzi_xml g tile_format))
  else if dzi_format = jsonStr then some (.inr (dzi_json g tile_format))
  else none

/-- Scenario generator: a generic pyramid over a 1000×1000 slide with
`tile_size=256`, `downsample=2`, `overlap=0`. -/
def gen1000 : TilePyramidGenerator := ⟨.generic, 1000, 1000, 256, 2, 0⟩

/-- A Zoomify generator over a 16384×16384 slide (5461 tiles), large enough
to reach global tile indices 255 and 256. -/
def zoomifyBig : TilePyramidGenerator := ⟨.zoomify, 16384, 16384, 256, 2, 0⟩

/-- A generic generator whose slide (100×100) is smaller than half the tile
size, making the `level_count` formula degenerate. -/
def gen100small : TilePyramidGenerator := ⟨.generic, 100, 100, 256, 2, 0⟩

/-- A generic generator constructed with `downsample=4`. -/
def gen4x : TilePyramidGenerator := ⟨.generic, 1000, 1000, 256, 4, 0⟩

/-- A generic generator with a nonzero overlap. -/
def genOverlap : TilePyramidGenerator := ⟨.generic, 1000, 1000, 256, 2, 1⟩

/-- A DeepZoom generator with the class defaults `tile_size=254`,
`overlap=1`, over a 1000×1000 slide. -/
def dzDefault : TilePyramidGenerator := ⟨.deepzoom, 1000, 1000, 254, 2, 1⟩

/-! ### Arithmetic facts about the fuel-based logarithms -/

theorem log2Aux_spec :
    ∀ fuel n : ℕ, 1 ≤ n → n ≤ fuel →
      2 ^ log2Aux fuel n ≤ n ∧ n < 2 ^ (log2Aux fuel n + 1) := by
  intro fuel
  induction fuel with
  | zero => intro n h1 h2; exact absurd (h1.trans h2) (by decide)
  | succ fuel ih =>
    intro n h1 h2
    rw [log2Aux]
    by_cases hn : n ≤ 1
    · rw [if_pos hn]
      have hn1 : n = 1 := by omega
      simp [hn1]
    · rw [if_neg hn]
      have h1' : 1 ≤ n / 2 := by omega
      have h2' : n / 2 ≤ fuel := by omega
      obtain ⟨ha, hb⟩ := ih (n / 2) h1' h2'
      simp only [pow_succ] at hb ⊢
      set a := 2 ^ log2Aux fuel (n / 2) with hA
      omega

theorem log2floor_spec (n : ℕ) (h : 1 ≤ n) :
    2 ^ log2floor n ≤ n ∧ n < 2 ^ (log2floor n + 1) :=
  log2Aux_spec n n h le_rfl

theorem clog2_spec (n : ℕ) (h : 1 ≤ n) :
    n ≤ 2 ^ clog2 n ∧ ∀ k, n ≤ 2 ^ k → clog2 n ≤ k := by
  rw [clog2]
  by_cases hn : n ≤ 1
  · rw [if_pos hn]
    have hn1 : n = 1 := by omega
    exact ⟨by simp [hn1], fun k _ => Nat.zero_le k⟩
  · rw [if_neg hn]
    obtain ⟨ha, hb⟩ := log2floor_spec (n - 1) (by omega)
    constructor
    · simp only [pow_succ] at hb ⊢
      set a := 2 ^ log2floor (n - 1) with hA
      omega
    · intro k hk
      by_contra hlt
      push_neg at hlt
      have hk2 : 2 ^ k ≤ 2 ^ log2floor (n - 1) :=
        Nat.pow_le_pow_right (by omega) (by omega)
      omega

/-- `ceilDiv a b ≤ n ↔ a ≤ n * b`: `ceilDiv` is the least cover count. -/
theorem ceilDiv_le_iff {a b n : ℕ} (hb : 0 < b) : ceilDiv a b ≤ n ↔ a ≤ n * b := by
  rw [show ceilDiv a b = a ⌈/⌉ b from rfl, ceilDiv_le_iff_le_mul hb, mul_comm]

theorem ceilDiv_lt_iff {a b n : ℕ} (hb : 0 < b) : n < ceilDiv a b ↔ n * b < a := by
  rw [← Nat.not_le, ceilDiv_le_iff hb, Nat.not_le]

theorem le_ceilDiv_mul (a b : ℕ) (hb : 0 < b) : a ≤ ceilDiv a b * b :=
  (ceilDiv_le_iff hb).1 le_rfl

/-- Bridge between the rational inequality `w ≤ ts * 2 ^ k` (for `k : ℤ`) and
natural-number inequalities. -/
theorem le_mul_zpow_iff (w ts : ℕ) (k : ℤ) :
    ((w : ℚ) ≤ (ts : ℚ) * (2 : ℚ) ^ k) ↔
      w * 2 ^ (-k).toNat ≤ ts * 2 ^ k.toNat := by
  rcases le_or_lt 0 k with hk | hk
  · rw [show (-k).toNat = 0 from by omega, pow_zero, mul_one]
    have hkk : k = (k.toNat : ℤ) := (Int.toNat_of_nonneg hk).symm
    rw [hkk, zpow_natCast]
    constructor <;> intro h <;> exact_mod_cast h
  · rw [show k.toNat = 0 from by omega, pow_zero, mul_one]
    rw [show (2 : ℚ) ^ k = ((2 : ℚ) ^ (-k).toNat)⁻¹ from by
      rw [← zpow_natCast (2 : ℚ) (-k).toNat,
        show (((-k).toNat : ℤ)) = -k from by omega, zpow_neg, inv_inv]]
    rw [← div_eq_mul_inv, le_div_iff₀ (by positivity)]
    constructor <;> intro h <;> exact_mod_cast h

/-- `log2Ceil w ts` is exactly `⌈log2 (w / ts)⌉`: the least integer `k` with
`w / ts ≤ 2 ^ k`. -/
theorem log2Ceil_spec (w ts : ℕ) (hw : 1 ≤ w) (hts : 1 ≤ ts) :
    (w : ℚ) ≤ (ts : ℚ) * (2 : ℚ) ^ log2Ceil w ts ∧
      ∀ k : ℤ, (w : ℚ) ≤ (ts : ℚ) * (2 : ℚ) ^ k → log2Ceil w ts ≤ k := by
  rw [log2Ceil]
  by_cases hcase : w ≤ ts
  · rw [if_pos hcase]
    set L := log2floor (ts / w) with hL
    have hdiv : 1 ≤ ts / w := (Nat.one_le_div_iff (by omega)).2 hcase
    obtain ⟨hA, hB⟩ := log2floor_spec (ts / w) hdiv
    constructor
    · rw [le_mul_zpow_iff, show ((-(L : ℤ)).toNat) = 0 from by omega,
        show ((-(-(L : ℤ))).toNat) = L from by omega, pow_zero, mul_one]
      calc w * 2 ^ L ≤ w * (ts / w) := Nat.mul_le_mul_left _ hA
        _ = ts / w * w := mul_comm _ _
        _ ≤ ts := Nat.div_mul_le_self ts w
    · intro k hk
      rw [le_mul_zpow_iff] at hk
      rcases le_or_lt 0 k with hk0 | hk0
      · omega
      · rw [show k.toNat = 0 from by omega, pow_zero, mul_one] at hk
        rw [mul_comm] at hk
        have h2 : 2 ^ (-k).toNat ≤ ts / w := (Nat.le_div_iff_mul_le (by omega)).2 hk
        have h3 : (-k).toNat < L + 1 :=
          (Nat.pow_lt_pow_iff_right (by omega)).1 (lt_of_le_of_lt h2 hB)
        omega
  · rw [if_neg hcase]
    set c := ceilDiv w ts with hc
    have hc1 : 1 ≤ c := by
      have h0 : (0 : ℕ) * ts < w := by simpa using (show 0 < w by omega)
      have := (ceilDiv_lt_iff (by omega : 0 < ts)).2 h0
      omega
    obtain ⟨hA, hB⟩ := clog2_spec c hc1
    constructor
    · rw [le_mul_zpow_iff, show ((-(clog2 c : ℤ)).toNat) = 0 from by omega,
        show (((clog2 c : ℤ)).toNat) = clog2 c from by omega, pow_zero, mul_one]
      calc w ≤ c * ts := le_ceilDiv_mul w ts (by omega)
        _ ≤ 2 ^ clog2 c * ts := Nat.mul_le_mul_right _ hA
        _ = ts * 2 ^ clog2 c := mul_comm _ _
    · intro k hk
      rw [le_mul_zpow_iff] at hk
      rcases le_or_lt 0 k with hk0 | hk0
      · rw [show ((-k).toNat) = 0 from by omega, pow_zero, mul_one] at hk
        have h1 : c ≤ 2 ^ k.toNat :=
          (ceilDiv_le_iff (by omega : 0 < ts)).2 (by rw [mul_comm]; exact hk)
        have h2 := hB _ h1
        omega
      · rw [show k.toNat = 0 from by omega, pow_zero, mul_one] at hk
        have hle : w ≤ w * 2 ^ (-k).toNat :=
          calc w = w * 1 := (mul_one w).symm
            _ ≤ w * 2 ^ (-k).toNat := Nat.mul_le_mul_left w Nat.one_le_two_pow
        exact absurd (hle.trans hk) hcase

/-- `log2Ceil` is monotone in its first argument. -/
theorem log2Ceil_le_log2Ceil {a b ts : ℕ} (ha : 1 ≤ a) (hts : 1 ≤ ts)
    (hab : a ≤ b) : log2Ceil a ts ≤ log2Ceil b ts := by
  obtain ⟨h1, _⟩ := log2Ceil_spec b ts (ha.trans hab) hts
  obtain ⟨_, hmin⟩ := log2Ceil_spec a ts ha hts
  exact hmin _ (le_trans (by exact_mod_cast hab) h1)

/-- The per-axis maximum of ceiled logs equals the ceiled log of the larger
axis. -/
theorem log2Ceil_max (a b ts : ℕ) (ha : 1 ≤ a) (hb : 1 ≤ b) (hts : 1 ≤ ts) :
    max (log2Ceil a ts) (log2Ceil b ts) = log2Ceil (max a b) ts := by
  rcases le_total a b with h | h
  · rw [max_eq_right (log2Ceil_le_log2Ceil ha hts h), Nat.max_eq_right h]
  · rw [max_eq_left (log2Ceil_le_log2Ceil hb hts h), Nat.max_eq_left h]

/-! ### Claim C1 — Zoomify tile groups -/

/-- Claim C1: for every Zoomify generator and valid tile address within the
level's grid, `tile_group(level, x, y)` equals the cumulative tile count of
levels `0..level-1` plus `y * cols + x`, integer-divided by 256; an address
beyond the grid yields the out-of-range error; and on a concrete pyramid
large enough, global tile index 255 is in group 0 while index 256 is in
group 1. -/
theorem tile_group_formula :
    (∀ (g : TilePyramidGenerator) (level : ℤ) (x y cols rows : ℕ),
        tile_grid_size g level = some (cols, rows) → x < cols → y < rows →
        tile_group g level x y =
          some ((((List.range level.toNat).map fun n : ℕ =>
            tile_grid_prod g (n : ℤ)).sum + (y * cols + x)) / 256))
    ∧ (∀ (g : TilePyramidGenerator) (level : ℤ) (x y cols rows : ℕ),
        tile_grid_size g level = some (cols, rows) → cols ≤ x ∨ rows ≤ y →
        tile_group g level x y = none)
    ∧ tile_group zoomifyBig 4 10 10 = some 0
    ∧ tile_group zoomifyBig 4 11 10 = some 1 := by
  refine ⟨?_, ?_, by decide, by decide⟩
  · intro g level x y cols rows hgrid hx hy
    simp only [tile_group, hgrid]
    rw [if_neg (by omega)]
  · intro g level x y cols rows hgrid hxy
    simp only [tile_group, hgrid]
    rw [if_pos (by omega)]

/-- Witness for `tile_group_formula`: its general part applied to the
concrete address `(level 1, x=1, y=1)` of `zoomifyBig`, whose level-1 grid is
2×2. -/
theorem tile_group_formula_witness :
    tile_group zoomifyBig 1 1 1 =
      some ((((List.range (1 : ℤ).toNat).map fun n : ℕ =>
        tile_grid_prod zoomifyBig (n : ℤ)).sum + (1 * 2 + 1)) / 256) :=
  tile_group_formula.1 zoomifyBig 1 1 1 2 2 (by decide) (by decide) (by decide)

/-! ### Claim C3 — level_count formula and the 1000×1000 scenario -/

/-- Claim C3 (amended): the generic `level_count` is
`ceil(log2(max(w, h) / tile_size)) + 1` for *all* positive inputs — including
the degenerate case `tile_size ≥ 2 * max(w, h)` where this is `≤ 0`: the code
neither raises a domain error nor clamps the result to 1 (`gen100small`
evaluates to 0).  The 1000×1000 scenario values hold. -/
theorem level_count_formula :
    (∀ g : TilePyramidGenerator, g.variant = .generic → 0 < g.slide_width →
        0 < g.slide_height → 0 < g.tile_size →
        level_count g =
          log2Ceil (max g.slide_width g.slide_height) g.tile_size + 1)
    ∧ level_count gen1000 = 3
    ∧ level_dimensions gen1000 2 = (1000, 1000)
    ∧ tile_grid_size gen1000 2 = some (4, 4)
    ∧ level_dimensions gen1000 0 = (250, 250)
    ∧ tile_grid_size gen1000 0 = some (1, 1)
    ∧ level_count gen100small = 0 := by
  refine ⟨?_, by decide, by decide, by decide, by decide, by decide, by decide⟩
  intro g hv hw hh hts
  simp only [level_count, super_level_count, sub_tile_level_count, hv]
  rw [log2Ceil_max _ _ _ hw hh hts]
  push_cast
  ring

/-- Witness for `level_count_formula`: the general formula instantiated at
`gen1000`. -/
theorem level_count_formula_witness :
    level_count gen1000 = log2Ceil (max gen1000.slide_width gen1000.slide_height)
      gen1000.tile_size + 1 :=
  level_count_formula.1 gen1000 (by decide) (by decide) (by decide) (by decide)

/-- Counterexample to claim C3 as stated: with a 100×100 slide and
`tile_size=256` the degenerate result is `0` — the code returns it as-is, so
`level_count` is neither raised as a domain error nor clamped to the claimed
minimum of 1. -/
theorem level_count_degenerate_counterexample :
    level_count gen100small = 0 ∧ level_count gen100small < 1 := by
  exact ⟨by decide, by decide⟩

/-! ### Claim C4 — level_downsample ignores the downsample argument -/

/-- Claim C4 (code bug): `level_downsample` is `2 ** (level_count - level - 1)`
with a hardcoded base 2 — the stored `downsample` field is never read, so two
generators differing only in `downsample` have identical level downsamples;
and for the generator built with `downsample=4` the code yields
`level_downsample(0) = 4` where the claim (`d ** (level_count - level - 1)`,
here `4 ** 2`) requires 16. -/
theorem level_downsample_ignores_downsample :
    (∀ (v : PyramidVariant) (w h ts d d' ov : ℕ) (level : ℤ),
        level_downsample ⟨v, w, h, ts, d, ov⟩ level =
          level_downsample ⟨v, w, h, ts, d', ov⟩ level)
    ∧ gen4x.downsample = 4
    ∧ level_count gen4x = 3
    ∧ level_downsample gen4x 0 = 4
    ∧ (gen4x.downsample : ℚ) ^ (3 - 0 - 1 : ℕ) = 16
    ∧ (4 : ℚ) ≠ 16 := by
  refine ⟨?_, by decide, by decide, ?_, ?_, by norm_num⟩
  · intro v w h ts d d' ov level
    cases v <;> rfl
  · rw [level_downsample, show level_count gen4x = 3 from by decide]
    norm_num
  · norm_num [gen4x]

/-! ### Claim C9 — overview thumbnail size -/

/-- Claim C9 (code bug): `get_tile_thumb` scales the slide to longest edge
`tile_size + overlap` (the code's `tile_dim`), not `tile_size` as both the
claim and the method's own docstring state: with `tile_size=256`, `overlap=1`
the thumbnail dimensions are 257×257. -/
theorem get_tile_thumb_overlap_bug :
    genOverlap.tile_size = 256 ∧ genOverlap.overlap = 1
      ∧ get_tile_thumb genOverlap = (257, 257) ∧ (257 : ℤ) ≠ 256 := by
  refine ⟨by decide, by decide, ?_, by norm_num⟩
  rw [get_tile_thumb]
  norm_num [genOverlap, roundHalfEven]

/-! ### Claim C7 — DeepZoom sub-tile levels -/

/-- Claim C7: for a DeepZoom generator, `sub_tile_level_count` is exactly
`ceil(log2(output_tile_size))` (the least `k` with
`output_tile_size ≤ 2 ^ k`), equal to 8 at the default output tile size 256;
`level_count` is the generic pyramid's level count (sub-tile contribution
included, via dynamic dispatch) minus one; and every level below
`sub_tile_level_count` is rendered by shrinking the overview thumbnail into a
`2^level × 2^level` box, never by a region-reader rectangle request. -/
theorem deepzoom_sub_tile_levels :
    (∀ g : TilePyramidGenerator, g.variant = .deepzoom → 1 ≤ output_tile_size g →
        output_tile_size g ≤ 2 ^ sub_tile_level_count g
          ∧ ∀ k, output_tile_size g ≤ 2 ^ k → sub_tile_level_count g ≤ k)
    ∧ output_tile_size dzDefault = 256
    ∧ sub_tile_level_count dzDefault = 8
    ∧ (∀ g : TilePyramidGenerator, g.variant = .deepzoom →
        level_count g = super_level_count g - 1)
    ∧ (∀ (g : TilePyramidGenerator) (level x y : ℤ), g.variant = .deepzoom →
        0 ≤ level → level ≤ level_count g →
        level < (sub_tile_level_count g : ℤ) →
        get_tile g level x y = .thumb (2 ^ level.toNat)) := by
  refine ⟨?_, by decide, by decide, ?_, ?_⟩
  · intro g hv h1
    simp only [sub_tile_level_count, hv]
    exact clog2_spec _ h1
  · intro g hv
    simp only [level_count, hv]
  · intro g level x y hv h0 hle hsub
    rw [get_tile, if_neg (by omega), if_neg (by omega), if_pos hsub]

/-- Witness for `deepzoom_sub_tile_levels`: its sub-tile dispatch applied at
level 0 of the default DeepZoom generator — the 1×1 whole-slide thumbnail. -/
theorem deepzoom_sub_tile_levels_witness :
    get_tile dzDefault 0 0 0 = .thumb (2 ^ (0 : ℤ).toNat) :=
  deepzoom_sub_tile_levels.2.2.2.2 dzDefault 0 0 0 (by decide) (by decide)
    (by decide) (by decide)

/-! ### Claim C8 — the DZI descriptor -/

/-- Claim C8: the markup and key/value descriptor forms carry identical
`Format`, `Overlap`, `TileSize` and `Size` values; the `Size` element's
`Height` attribute is populated from the slide's *width* and `Width` from its
*height* (the literal swapped mapping of the source); `TileSize` is the
output tile size `tile_size + 2*overlap`; and any descriptor format other
than the two supported ones is rejected. -/
theorem dzi_descriptor :
    (∀ (g : TilePyramidGenerator) (tf : String),
        (dzi_xml g tf).attrs.lookup formatKey = some tf
        ∧ (dzi_xml g tf).attrs.lookup overlapKey = some (toString g.overlap)
        ∧ (dzi_xml g tf).attrs.lookup tileSizeKey =
            some (toString (g.tile_size + 2 * g.overlap))
        ∧ (dzi_xml g tf).children.map XmlElement.attrs =
            [[(heightKey, toString g.slide_width),
              (widthKey, toString g.slide_height)]]
        ∧ ((dzi_json g tf).field imageTag).bind (JsonValue.field formatKey) =
            some (.str tf)
        ∧ ((dzi_json g tf).field imageTag).bind (JsonValue.field overlapKey) =
            some (.str (toString g.overlap))
        ∧ ((dzi_json g tf).field imageTag).bind (JsonValue.field tileSizeKey) =
            some (.str (toString (g.tile_size + 2 * g.overlap)))
        ∧ ((dzi_json g tf).field imageTag).bind (JsonValue.field sizeTag) =
            some (.obj [(heightKey, .str (toString g.slide_width)),
              (widthKey, .str (toString g.slide_height))]))
    ∧ (∀ (g : TilePyramidGenerator) (f tf : String),
        f ≠ xmlStr → f ≠ jsonStr → dzi g f tf = none) := by
  constructor
  · intro g tf
    refine ⟨?_, ?_, ?_, ?_, ?_, ?_, ?_, ?_⟩ <;>
      simp [dzi_xml, dzi_json, XmlElement.attrs, XmlElement.children,
        JsonValue.field, List.lookup, output_tile_size, xmlnsKey, formatKey,
        overlapKey, tileSizeKey, heightKey, widthKey, imageTag, sizeTag]
  · intro g f tf hx hj
    rw [dzi, if_neg hx, if_neg hj]

/-- Witness for `dzi_descriptor`: an unsupported descriptor format string is
rejected. -/
theorem dzi_descriptor_witness :
    dzi dzDefault otherFormatStr jpgFormatStr = none :=
  dzi_descriptor.2 dzDefault otherFormatStr jpgFormatStr (by decide) (by decide)

/-! ### Claim C5 — get_tile range checking -/

/-- A nonnegative integer power of 2 over `ℚ` is the cast of the natural
power. -/
theorem two_zpow_toNat {e : ℤ} (he : 0 ≤ e) :
    (2 : ℚ) ^ e = ((2 ^ e.toNat : ℕ) : ℚ) := by
  obtain ⟨n, rfl⟩ := Int.eq_ofNat_of_zero_le he
  rw [zpow_natCast]
  push_cast
  norm_num

/-- Positivity propagates backwards through `ceilDiv`. -/
theorem pos_of_ceilDiv_pos {a b : ℕ} (h : 0 < ceilDiv a b) : 0 < a ∧ 0 < b := by
  rcases Nat.eq_zero_or_pos b with hb | hb
  · subst hb
    simp [ceilDiv] at h
  · have h0 : (0 : ℕ) * b < a := (ceilDiv_lt_iff hb).1 h
    exact ⟨by omega, hb⟩

/-- Claim C5 (amended): `get_tile` raises the out-of-range error exactly when
`level < 0`, `level > level_count` (strictly — `level == level_count` is let
through), or the level is tile-bearing and the baseline origin strictly
exceeds the slide extent in *both* axes; negative `x`/`y` alone never raise.
Moreover every in-grid address of a valid tile-bearing level reaches the
region reader (`readRect`). -/
theorem get_tile_range_checks :
    (∀ (g : TilePyramidGenerator) (level x y : ℤ),
        get_tile g level x y = .err ↔
          (level < 0 ∨ level_count g < level ∨
            ((sub_tile_level_count g : ℤ) ≤ level ∧ 0 ≤ level
              ∧ level ≤ level_count g
              ∧ (g.slide_width : ℚ) < baseline_x g level x
              ∧ (g.slide_height : ℚ) < baseline_y g level y)))
    ∧ (∀ (g : TilePyramidGenerator) (level : ℤ) (x y cols rows : ℕ),
        tile_grid_size g level = some (cols, rows) →
        (sub_tile_level_count g : ℤ) ≤ level → x < cols → y < rows →
        get_tile g level (x : ℤ) (y : ℤ) =
          .readRect (baseline_x g level (x : ℤ)) (baseline_y g level (y : ℤ))
            (output_tile_size g)) := by
  constructor
  · intro g level x y
    rw [get_tile]
    split_ifs with h1 h2 h3 h4
    · exact iff_of_true rfl (Or.inl h1)
    · exact iff_of_true rfl (Or.inr (Or.inl h2))
    · refine iff_of_false (by simp) ?_
      rintro (h | h | ⟨hc, -⟩) <;> omega
    · exact iff_of_true rfl (Or.inr (Or.inr ⟨by omega, by omega, by omega, h4.1, h4.2⟩))
    · refine iff_of_false (by simp) ?_
      rintro (h | h | ⟨-, -, -, hbx, hby⟩)
      · omega
      · omega
      · exact h4 ⟨hbx, hby⟩
  · intro g level x y cols rows hgrid hsub hx hy
    have hrange : ¬(level < 0 ∨ level_count g ≤ level) := by
      intro hc
      rw [tile_grid_size, if_pos hc] at hgrid
      exact Option.noConfusion hgrid
    obtain ⟨h0, hL⟩ := not_or.1 hrange
    simp only [tile_grid_size, if_neg hrange, Option.some.injEq, Prod.mk.injEq]
      at hgrid
    obtain ⟨hcols, hrows⟩ := hgrid
    have he0 : (0 : ℤ) ≤ level_count g - level - 1 := by omega
    have hdim : (level_dimensions g level).1 =
        ceilDiv g.slide_width (2 ^ (level_count g - level - 1).toNat) := by
      rw [level_dimensions, if_pos he0]
    -- the in-grid bound forces the baseline x-origin strictly below the width
    have hcpos : 0 < ceilDiv (level_dimensions g level).1 g.tile_size := by
      omega
    obtain ⟨hwl, hts⟩ := pos_of_ceilDiv_pos hcpos
    have hstep1 : x * g.tile_size < (level_dimensions g level).1 :=
      (ceilDiv_lt_iff hts).1 (by omega)
    have hkey : x * g.tile_size * 2 ^ (level_count g - level - 1).toNat
        < g.slide_width := by
      rw [hdim] at hstep1
      exact (ceilDiv_lt_iff (by positivity)).1 hstep1
    have hscale : level_downsample g level =
        ((2 ^ (level_count g - level - 1).toNat : ℕ) : ℚ) := by
      rw [level_downsample, two_zpow_toNat he0]
    have hbx : baseline_x g level (x : ℤ) < (g.slide_width : ℚ) := by
      rw [baseline_x, hscale]
      have hq : ((x : ℚ)) * (g.tile_size : ℚ)
          * ((2 ^ (level_count g - level - 1).toNat : ℕ) : ℚ)
          < (g.slide_width : ℚ) := by exact_mod_cast hkey
      have hnn : (0 : ℚ) ≤ (g.overlap : ℚ)
          * ((2 ^ (level_count g - level - 1).toNat : ℕ) : ℚ) := by positivity
      push_cast at hq hnn ⊢
      linarith
    rw [get_tile, if_neg (by omega), if_neg (by omega), if_neg (by omega),
      if_neg (by intro hc; exact absurd hc.1 (not_lt.2 hbx.le))]

/-- Witness for `get_tile_range_checks`: the reader is reached at the in-grid
address `(level 2, x=3, y=3)` of the 1000×1000 generic pyramid (level-2 grid
4×4). -/
theorem get_tile_range_checks_witness :
    get_tile gen1000 2 (3 : ℕ) (3 : ℕ) =
      .readRect (baseline_x gen1000 2 (3 : ℕ)) (baseline_y gen1000 2 (3 : ℕ))
        (output_tile_size gen1000) :=
  get_tile_range_checks.2 gen1000 2 3 3 4 4 (by decide) (by decide) (by decide)
    (by decide)

/-- Counterexample to claim C5 as stated: a negative `x` does *not* raise —
the region reader is invoked with a negative baseline origin — and
`level == level_count` (here 3) also does not raise. -/
theorem get_tile_bounds_counterexample :
    get_tile gen1000 0 (-1) 0 = .readRect (-1024) 0 256
      ∧ get_tile gen1000 3 0 0 = .readRect 0 0 256
      ∧ level_count gen1000 = 3 := by
  refine ⟨?_, ?_, by decide⟩
  · have hd : level_downsample gen1000 0 = 4 := by
      rw [level_downsample, show level_count gen1000 = 3 from by decide]
      norm_num
    rw [get_tile, if_neg (by norm_num),
      if_neg (by rw [show level_count gen1000 = 3 from by decide]; norm_num),
      if_neg (by rw [show sub_tile_level_count gen1000 = 0 from by decide]
                 norm_num)]
    rw [if_neg (by rw [baseline_x, baseline_y, hd]; norm_num [gen1000])]
    rw [baseline_x, baseline_y, hd]
    norm_num [gen1000, output_tile_size]
  · have hd : level_downsample gen1000 3 = 1 / 2 := by
      rw [level_downsample, show level_count gen1000 = 3 from by decide]
      norm_num
    rw [get_tile, if_neg (by norm_num),
      if_neg (by rw [show level_count gen1000 = 3 from by decide]; norm_num),
      if_neg (by rw [show sub_tile_level_count gen1000 = 0 from by decide]
                 norm_num)]
    rw [if_neg (by rw [baseline_x, baseline_y, hd]; norm_num [gen1000])]
    rw [baseline_x, baseline_y, hd]
    norm_num [gen1000, output_tile_size]

/-! ### Claim C2 — the tile enumeration -/

theorem gridSizeAt_eq (g : TilePyramidGenerator) {l : ℕ}
    (hl : (l : ℤ) < level_count g) :
    tile_grid_size g (l : ℤ) = some (gridSizeAt g l) := by
  rw [gridSizeAt, tile_grid_size, if_neg (by omega)]
  rfl

theorem tile_grid_prod_eq (g : TilePyramidGenerator) {l : ℕ}
    (hl : (l : ℤ) < level_count g) :
    tile_grid_prod g (l : ℤ) = (gridSizeAt g l).1 * (gridSizeAt g l).2 := by
  rw [tile_grid_prod, gridSizeAt_eq g hl]

/-- The enumeration has exactly `__len__` entries. -/
theorem iterAddresses_length (g : TilePyramidGenerator) :
    (iterAddresses g).length = tile_count g := by
  rw [iterAddresses, tile_count, List.length_flatMap]
  apply congrArg List.sum
  apply List.map_congr_left
  intro l hl
  rw [List.mem_range] at hl
  have hl' : (l : ℤ) < level_count g := by omega
  rw [Function.comp_apply, List.length_flatMap, tile_grid_prod_eq g hl']
  simp [Function.comp_def, List.map_const', List.sum_replicate, smul_eq_mul]

/-- The enumeration hits exactly the valid addresses. -/
theorem iterAddresses_mem (g : TilePyramidGenerator) (a : ℕ × ℕ × ℕ) :
    a ∈ iterAddresses g ↔ validAddr g a := by
  rw [iterAddresses, validAddr]
  simp only [List.mem_flatMap, List.mem_map, List.mem_range]
  constructor
  · rintro ⟨l, hl, x, hx, y, hy, rfl⟩
    exact ⟨hl, hx, hy⟩
  · rintro ⟨h1, h2, h3⟩
    exact ⟨a.1, h1, a.2.1, h2, a.2.2, h3, rfl⟩

/-- The enumeration is strictly increasing in the loop order: ascending
level, then ascending `x` (outer), then ascending `y` (inner). -/
theorem iterAddresses_pairwise (g : TilePyramidGenerator) :
    (iterAddresses g).Pairwise addrLt := by
  rw [iterAddresses, List.pairwise_flatMap]
  constructor
  · intro l hl
    rw [List.pairwise_flatMap]
    constructor
    · intro x hx
      rw [List.pairwise_map]
      refine List.Pairwise.imp ?_ (List.pairwise_lt_range _)
      intro y1 y2 h
      exact Or.inr ⟨rfl, Or.inr ⟨rfl, h⟩⟩
    · refine List.Pairwise.imp ?_ (List.pairwise_lt_range _)
      intro x1 x2 h12 u hu v hv
      simp only [List.mem_map, List.mem_range] at hu hv
      obtain ⟨y1, -, rfl⟩ := hu
      obtain ⟨y2, -, rfl⟩ := hv
      exact Or.inr ⟨rfl, Or.inl h12⟩
  · refine List.Pairwise.imp ?_ (List.pairwise_lt_range _)
    intro l1 l2 h12 u hu v hv
    simp only [List.mem_flatMap, List.mem_map, List.mem_range] at hu hv
    obtain ⟨x1, -, y1, -, rfl⟩ := hu
    obtain ⟨x2, -, y2, -, rfl⟩ := hv
    exact Or.inl h12

theorem addrLt_ne {a b : ℕ × ℕ × ℕ} (h : addrLt a b) : a ≠ b := by
  rintro rfl
  rcases h with h | ⟨-, h | ⟨-, h⟩⟩ <;> omega

/-- Claim C2 (amended): iterating yields exactly `tile_count()` tiles — the
valid addresses, each exactly once — in ascending level order, and within
each level with `x` as the outer index and `y` as the inner, faster-varying
index (`np.ndindex` C order on the `(cols, rows)` shape), not `y`-outer as
claimed.  The strict `addrLt` ordering pins the sequence uniquely. -/
theorem iter_enumeration :
    (∀ g : TilePyramidGenerator, (iterAddresses g).length = tile_count g)
    ∧ (∀ (g : TilePyramidGenerator) (a : ℕ × ℕ × ℕ),
        a ∈ iterAddresses g ↔ validAddr g a)
    ∧ (∀ g : TilePyramidGenerator, (iterAddresses g).Pairwise addrLt)
    ∧ (∀ g : TilePyramidGenerator, (iterAddresses g).Nodup) :=
  ⟨iterAddresses_length, iterAddresses_mem, iterAddresses_pairwise,
    fun g => (iterAddresses_pairwise g).imp addrLt_ne⟩

/-- Counterexample to claim C2 as stated: on the 1000×1000 pyramid the
implemented enumeration (x outer, y inner within a level) differs from the
claimed row-major y-outer/x-inner order. -/
theorem iter_order_counterexample :
    iterAddresses gen1000 ≠ claimedIterAddresses gen1000 := by decide

/-! ### Claim C6 — dump validates (container, compression) pairs -/

/-- Claim C6 (amended): zip accepts only `{None, deflate, bz2, lzma}` and tar
only `{None, gzip, bz2, lzma}`, both validated before the archive is opened
and before any tile is rendered (empty effect trace on failure); an unknown
container is rejected up front; zip+gzip (Scenario 2) is rejected with no
effect at all.  Directory output rejects any compression *after* creating the
destination directory — one mkdir I/O occurs, though still before any tile is
rendered. -/
theorem dump_validation :
    (∀ (g : TilePyramidGenerator) (fs : List FsPath) (p : FsPath)
        (comp : Option String), comp ≠ none → comp ≠ some deflateStr →
        comp ≠ some bz2Str → comp ≠ some lzmaStr →
        dump g fs p (some zipStr) comp = ([], .error zipCompressionErrMsg))
    ∧ (∀ (g : TilePyramidGenerator) (fs : List FsPath) (p : FsPath)
        (comp : Option String), comp ≠ none → comp ≠ some gzipStr →
        comp ≠ some bz2Str → comp ≠ some lzmaStr →
        dump g fs p (some tarStr) comp = ([], .error tarCompressionErrMsg))
    ∧ (∀ (g : TilePyramidGenerator) (fs : List FsPath) (p : FsPath)
        (c comp : Option String), c ≠ none → c ≠ some zipStr → c ≠ some tarStr →
        dump g fs p c comp = ([], .error containerErrMsg))
    ∧ (∀ (g : TilePyramidGenerator) (fs : List FsPath) (p : FsPath)
        (comp : Option String), p ∉ fs → p.dropLast ∈ fs → comp ≠ none →
        dump g fs p none comp = ([DumpEffect.mkdirDest], .error noneCompressionErrMsg))
    ∧ dump gen1000 [[]] [destDirStr] (some zipStr) (some gzipStr)
        = ([], .error zipCompressionErrMsg) := by
  refine ⟨?_, ?_, ?_, ?_, rfl⟩
  · intro g fs p comp h0 h1 h2 h3
    rw [dump, if_pos rfl, if_neg (by simp [h0, h1, h2, h3])]
  · intro g fs p comp h0 h1 h2 h3
    rw [dump, if_neg (by simp [tarStr, zipStr]), if_pos rfl,
      if_neg (by simp [h0, h1, h2, h3])]
  · intro g fs p c comp hc0 hc1 hc2
    rw [dump, if_neg hc1, if_neg hc2, if_neg hc0]
  · intro g fs p comp hp hp' hcomp
    rw [dump, if_neg (by simp), if_neg (by simp), if_pos rfl,
      if_neg (by simp [hp, hp']), if_pos hcomp]

/-- Witness for `dump_validation`: Scenario 2 — zip with gzip is rejected
with neither tile rendering nor I/O. -/
theorem dump_validation_witness :
    dump gen1000 [[]] [destDirStr] (some zipStr) (some gzipStr)
      = ([], .error zipCompressionErrMsg) :=
  dump_validation.1 gen1000 [[]] [destDirStr] (some gzipStr) (by decide)
    (by decide) (by decide) (by decide)

/-- Counterexample to claim C6 as stated: directory output with a compression
set does fail, but only *after* the destination mkdir — the effect trace is
nonempty, so some I/O is performed before the configuration error. -/
theorem dump_dir_compression_counterexample :
    dump gen1000 [[]] [destDirStr] none (some deflateStr)
      = ([DumpEffect.mkdirDest], .error noneCompressionErrMsg)
    ∧ [DumpEffect.mkdirDest] ≠ ([] : List DumpEffect) :=
  ⟨rfl, by simp⟩

/-! ### Claim C10 — directory-mode destination creation -/

theorem mem_foldl_addPrefix (l : List FsPath) (acc : List FsPath) (q : FsPath)
    (h : q ∈ acc) :
    q ∈ l.foldl (fun acc p => if p ∈ acc then acc else acc ++ [p]) acc := by
  induction l generalizing acc with
  | nil => exact h
  | cons a t ih =>
    rw [List.foldl_cons]
    apply ih
    by_cases ha : a ∈ acc
    · rw [if_pos ha]; exact h
    · rw [if_neg ha]; exact List.mem_append_left _ h

theorem mem_addPathPrefixes {fs : List FsPath} {p q : FsPath} (h : q ∈ fs) :
    q ∈ addPathPrefixes fs p :=
  mem_foldl_addPrefix _ _ _ h

/-- Every effect of the directory-mode tile loop is a tile render, or a
parent-directory mkdir / file save located at a tile path inside the
destination. -/
theorem dumpLoop_effects (g : TilePyramidGenerator) (dest : FsPath)
    (addrs : List (ℕ × ℕ × ℕ)) :
    ∀ (fs : List FsPath), ∀ e ∈ (dumpLoop g dest true addrs fs).1,
      (∃ l x y, e = DumpEffect.renderTile l x y) ∨
      (∃ a ∈ addrs, ∃ q, tile_path g (a.1 : ℤ) a.2.1 a.2.2 = some q ∧
        (e = DumpEffect.mkdirTileParent ((dest ++ q).dropLast)
          ∨ e = DumpEffect.saveTile (dest ++ q))) := by
  induction addrs with
  | nil => intro fs e he; simp [dumpLoop] at he
  | cons a rest ih =>
    obtain ⟨l, x, y⟩ := a
    intro fs e he
    rw [dumpLoop] at he
    cases htp : tile_path g (l : ℤ) x y with
    | none =>
      rw [htp] at he
      simp only [List.mem_singleton] at he
      exact Or.inl ⟨l, x, y, he⟩
    | some p =>
      rw [htp] at he
      simp only [if_true, List.mem_cons] at he
      rcases he with rfl | rfl | rfl | he2
      · exact Or.inl ⟨l, x, y, rfl⟩
      · exact Or.inr ⟨(l, x, y), List.mem_cons_self _ _, p, htp, Or.inl rfl⟩
      · exact Or.inr ⟨(l, x, y), List.mem_cons_self _ _, p, htp, Or.inr rfl⟩
      · rcases ih _ e he2 with h | ⟨a, ha, q, hq, hor⟩
        · exact Or.inl h
        · exact Or.inr ⟨a, List.mem_cons_of_mem _ ha, q, hq, hor⟩

/-- The tile loop only ever adds directories: the input directory set is
contained in the successful output set. -/
theorem dumpLoop_fs_mono (g : TilePyramidGenerator) (dest : FsPath) (b : Bool)
    (addrs : List (ℕ × ℕ × ℕ)) :
    ∀ (fs fs' : List FsPath), (dumpLoop g dest b addrs fs).2 = .ok fs' →
      ∀ q ∈ fs, q ∈ fs' := by
  induction addrs with
  | nil =>
    intro fs fs' h q hq
    simp only [dumpLoop, Except.ok.injEq] at h
    exact h ▸ hq
  | cons a rest ih =>
    obtain ⟨l, x, y⟩ := a
    intro fs fs' h q hq
    rw [dumpLoop] at h
    cases htp : tile_path g (l : ℤ) x y with
    | none =>
      rw [htp] at h
      exact absurd h (by simp)
    | some p =>
      rw [htp] at h
      cases b with
      | true =>
        simp only [if_true] at h
        exact ih _ _ h q (mem_addPathPrefixes hq)
      | false =>
        simp only [Bool.false_eq_true, if_false] at h
        exact ih _ _ h q hq

/-- Claim C10: in directory mode the destination is freshly created without
creating its ancestors — the call fails with an empty effect trace (no tile
rendered, nothing created) whenever the destination already exists or its
parent is missing; on the success path the only effects besides renders are
the destination mkdir itself and per-tile parent mkdirs / saves at tile paths
inside the destination, and the destination ends up in the directory set. -/
theorem dump_directory_creation :
    (∀ (g : TilePyramidGenerator) (fs : List FsPath) (p : FsPath)
        (comp : Option String), p ∈ fs ∨ p.dropLast ∉ fs →
        dump g fs p none comp = ([], .error mkdirErrMsg))
    ∧ (∀ (g : TilePyramidGenerator) (fs : List FsPath) (p : FsPath),
        p ∉ fs → p.dropLast ∈ fs →
        ∀ e ∈ (dump g fs p none none).1, e = DumpEffect.mkdirDest ∨
          (∃ l x y, e = DumpEffect.renderTile l x y) ∨
          (∃ a ∈ iterAddresses g, ∃ q,
            tile_path g (a.1 : ℤ) a.2.1 a.2.2 = some q ∧
            (e = DumpEffect.mkdirTileParent ((p ++ q).dropLast)
              ∨ e = DumpEffect.saveTile (p ++ q))))
    ∧ (∀ (g : TilePyramidGenerator) (fs : List FsPath) (p : FsPath)
        (fs' : List FsPath), p ∉ fs → p.dropLast ∈ fs →
        (dump g fs p none none).2 = .ok fs' → p ∈ fs') := by
  refine ⟨?_, ?_, ?_⟩
  · intro g fs p comp h
    rw [dump, if_neg (by simp), if_neg (by simp), if_pos rfl, if_pos h]
  · intro g fs p hp hp' e he
    rw [dump, if_neg (by simp), if_neg (by simp), if_pos rfl,
      if_neg (by simp [hp, hp']), if_neg (by simp)] at he
    rcases List.mem_cons.1 he with rfl | he2
    · exact Or.inl rfl
    · rcases dumpLoop_effects g p (iterAddresses g) _ e he2 with h | h
      · exact Or.inr (Or.inl h)
      · exact Or.inr (Or.inr h)
  · intro g fs p fs' hp hp' h
    rw [dump, if_neg (by simp), if_neg (by simp), if_pos rfl,
      if_neg (by simp [hp, hp']), if_neg (by simp)] at h
    exact dumpLoop_fs_mono g p true (iterAddresses g) _ _ h p (by simp)

/-- Witness for `dump_directory_creation`: dumping onto an already existing
destination directory fails with no effect. -/
theorem dump_directory_creation_witness :
    dump gen1000 [[], [destDirStr]] [destDirStr] none none
      = ([], .error mkdirErrMsg) :=
  dump_directory_creation.1 gen1000 [[], [destDirStr]] [destDirStr] none
    (Or.inl (by decide))

end Pyramid
